import Mathlib

/-!
# Verification of `schulessen.py` (sms-freiburg-auto-order)

A shallow embedding of the core logic of `src/schulessen.py`:

* `menuDetails`        — embeds `menu_details` (lines 14-49)
* `strptimeYmd`        — embeds `datetime.strptime(-, "%Y-%m-%d")` as used on the
                         `bstdt` attribute (lines 86, 93)
* `place_new_orders`   — embeds `place_new_orders` (lines 52-106), with the
                         browser replaced by an explicit environment `Env` and
                         the `while` loop given explicit fuel
* `click_next_week_button` — embeds `click_next_week_button` (lines 161-183)
* `print_orders`       — embeds `print_orders` (lines 192-218), producing the
                         list of strings passed to `print`

Page elements are values of `Elem`: the `bstdt` attribute (`none` models a
missing attribute, where Selenium's `get_attribute` returns `None`) and the
text of the menu cell reached by the XPath `../../preceding-sibling::*`
(`none` models `find_element` raising).  The browser is an `Env`: the two
initial element queries plus a transition function `clickResult` giving, for
the plus-button list current at click time, the plus-button list returned by
the re-query after the click (or `none` when the click itself raises).
Python exceptions are modelled as explicit error results; an uncaught
exception aborts `place_new_orders` with no return value, modelled by
`RunResult.failed` carrying no records.  Each run also yields a trace of
page-interaction events (`Event`) used for the temporal properties.
-/

namespace Schulessen

/-- A page element as seen by the script: its `bstdt` attribute and the text
of its menu cell (`../../preceding-sibling::*`), if that lookup succeeds. -/
structure Elem where
  bstdt : Option String
  menuCell : Option String
deriving DecidableEq, Repr

/-- Is the first list a prefix of the second? -/
def isPrefixCh : List Char → List Char → Bool
  | [], _ => true
  | _ :: _, [] => false
  | p :: ps, c :: cs => p = c && isPrefixCh ps cs

/-- One pass of Python `str.split(sep)` for a non-empty separator, scanning
left to right over the character list, non-overlapping, keeping empty pieces;
`fuel` bounds the scan (the caller passes the list length, which always
suffices since every step consumes at least one character). -/
def splitOnFuel (sep : List Char) : Nat → List Char → List Char → List (List Char)
  | 0, _, acc => [acc.reverse]
  | _ + 1, [], acc => [acc.reverse]
  | fuel + 1, c :: cs, acc =>
    if isPrefixCh sep (c :: cs) then
      acc.reverse :: splitOnFuel sep fuel (List.drop (sep.length - 1) cs) []
    else
      splitOnFuel sep fuel cs (c :: acc)

/-- Python `s.split(sep)` for a non-empty separator `sep`. -/
def pySplit (sep s : String) : List String :=
  (splitOnFuel sep.data s.data.length s.data []).map (fun cs => String.mk cs)

/-- Embeds `menu_details` (schulessen.py lines 14-49).  The `try/except`
around `find_element`/`.text` is the `none` branch; a text splitting into
exactly three double-newline sections is reduced to its middle section with
the last line dropped and single newlines replaced by spaces; any other
section count returns the text unchanged. -/
def menuDetails (order_button : Elem) : String :=
  match order_button.menuCell with
  | none => "--- Couldn't find menu details! ---"
  | some menu_text =>
    match pySplit "\n\n" menu_text with
    | [_, mid, _] => String.intercalate " " ((pySplit "\n" mid).dropLast)
    | _ => menu_text

/-- A calendar date as produced by `datetime.strptime(-, "%Y-%m-%d")`. -/
structure OrderDate where
  year : Nat
  month : Nat
  day : Nat
deriving DecidableEq, Repr

/-- The exceptions `datetime.strptime(value, "%Y-%m-%d")` raises on the value
passed from `get_attribute("bstdt")`: `typeErrorNone` when the attribute is
missing (`get_attribute` returned `None`), `valueError s` when the string `s`
does not match the format.  Note neither constructor carries any information
about which control the value came from. -/
inductive DateError where
  | typeErrorNone
  | valueError (timeData : String)
deriving DecidableEq, Repr

/-- Gregorian leap-year rule, as validated by `datetime`. -/
def isLeapYear (y : Nat) : Bool :=
  decide (y % 4 = 0 ∧ (y % 100 ≠ 0 ∨ y % 400 = 0))

/-- Days in a month, as validated by `datetime`. -/
def daysInMonth (y m : Nat) : Nat :=
  if m = 2 then (if isLeapYear y then 29 else 28)
  else if m = 4 ∨ m = 6 ∨ m = 9 ∨ m = 11 then 30
  else 31

deriving instance DecidableEq for Except

/-- The numeric value of a list of decimal digits. -/
def digitsToNat (cs : List Char) : Nat :=
  cs.foldl (fun n c => n * 10 + (c.toNat - Char.toNat '0')) 0

/-- Parse a non-empty all-digit string as a natural number. -/
def strToNat (s : String) : Option Nat :=
  if s.data ≠ [] ∧ s.data.all (fun c => c.isDigit) then some (digitsToNat s.data)
  else none

/-- Embeds `datetime.strptime(attr, "%Y-%m-%d")` for `attr =
button.get_attribute("bstdt")`: a missing attribute raises `TypeError`
(strptime argument must be str, not None); otherwise the string must be
exactly four year digits (year at least `MINYEAR = 1`), a hyphen, one or two
month digits (1-12), a hyphen and one or two day digits valid for that month,
else `ValueError`. -/
def strptimeYmd (attr : Option String) : Except DateError OrderDate :=
  match attr with
  | none => .error .typeErrorNone
  | some s =>
    match pySplit "-" s with
    | [ys, ms, ds] =>
      match strToNat ys, strToNat ms, strToNat ds with
      | some y, some m, some d =>
        if ys.length = 4 ∧ 1 ≤ y ∧ 1 ≤ ms.length ∧ ms.length ≤ 2 ∧
            1 ≤ ds.length ∧ ds.length ≤ 2 ∧ 1 ≤ m ∧ m ≤ 12 ∧ 1 ≤ d ∧
            d ≤ daysInMonth y m
        then .ok ⟨y, m, d⟩
        else .error (.valueError s)
      | _, _, _ => .error (.valueError s)
    | _ => .error (.valueError s)

/-- Strict comparison of dates, as Python compares `datetime` values:
lexicographic on (year, month, day). -/
def dateLt (a b : OrderDate) : Prop :=
  a.year < b.year ∨
    (a.year = b.year ∧
      (a.month < b.month ∨ (a.month = b.month ∧ a.day < b.day)))

instance (a b : OrderDate) : Decidable (dateLt a b) := by
  unfold dateLt; exact inferInstance

/-- Python's `min` over `x :: l`: keep the current value, replace it whenever
a later element is strictly smaller. -/
def foldMin (x : OrderDate) (l : List OrderDate) : OrderDate :=
  l.foldl (fun acc y => if dateLt y acc then y else acc) x

/-- Python's `max` over `x :: l`: keep the current value, replace it whenever
a later element is strictly larger. -/
def foldMax (x : OrderDate) (l : List OrderDate) : OrderDate :=
  l.foldl (fun acc y => if dateLt acc y then y else acc) x

/-- Zero-pad the decimal representation of `n` to width `w`. -/
def padZero (w : Nat) (n : Nat) : String :=
  String.mk (List.replicate (w - (toString n).length) '0') ++ toString n

/-- Embeds `date.strftime("%Y-%m-%d")`. -/
def strftimeYmd (d : OrderDate) : String :=
  padZero 4 d.year ++ "-" ++ padZero 2 d.month ++ "-" ++ padZero 2 d.day

/-- One order record, the dict `{"date": ..., "menu": ...}` built by
`place_new_orders`. -/
structure OrderRecord where
  date : OrderDate
  menu : String
deriving DecidableEq, Repr

/-- A page-interaction event, for the temporal properties: the two element
queries (carrying the list each returned), a click on an element, and the
`sleep` settle delay. -/
inductive Event where
  | scanMinus (found : List Elem)
  | scanPlus (found : List Elem)
  | click (e : Elem)
  | settle (seconds : Nat)
deriving DecidableEq, Repr

def isClick : Event → Bool
  | .click _ => true
  | _ => false

def isScanMinus : Event → Bool
  | .scanMinus _ => true
  | _ => false

def isScanPlus : Event → Bool
  | .scanPlus _ => true
  | _ => false

/-- Number of click actions in a trace. -/
def countClicks (t : List Event) : Nat := t.countP isClick

/-- The browser, as `place_new_orders` observes it: the element lists the two
initial `find_elements` queries return, and for each click on the head of the
current plus-button list, either the plus-button list the subsequent
`find_elements` re-query returns, or `none` when the click raises. -/
structure Env where
  minus0 : List Elem
  plus0 : List Elem
  clickResult : List Elem → Option (List Elem)

/-- An uncaught exception inside `place_new_orders`: a date-parse failure
(lines 86/93) or a raising `button.click()` (line 100). -/
inductive RunError where
  | dateError (e : DateError)
  | clickError
deriving DecidableEq, Repr

/-- The `for button in buttons_minus` loop (lines 85-89): parse each date,
extract each menu text, and collect the records in order; the first parse
failure raises, discarding everything. -/
def processMinus : List Elem → Except DateError (List OrderRecord)
  | [] => .ok []
  | button :: rest =>
    match strptimeYmd button.bstdt with
    | .error e => .error e
    | .ok order_date =>
      match processMinus rest with
      | .error e => .error e
      | .ok recs => .ok (⟨order_date, menuDetails button⟩ :: recs)

/-- Outcome of the `while buttons_plus` loop. -/
inductive LoopResult where
  | converged (newOrders : List OrderRecord)
  | failed (e : RunError)
  | outOfFuel
deriving DecidableEq, Repr

/-- The `while buttons_plus` loop (lines 91-104), with explicit fuel: take the
first plus button, parse its date (a failure raises before any click), extract
its menu text, click it (a raising click aborts after the click event), sleep,
append the record, re-query the plus buttons, and loop.  Records survive only
if every later iteration completes, exactly as the Python list `orders_new` is
lost when a later iteration raises. -/
def placeLoop (env : Env) : Nat → List Elem → List Event × LoopResult
  | 0, buttons_plus =>
    if buttons_plus.isEmpty then ([], .converged []) else ([], .outOfFuel)
  | fuel + 1, buttons_plus =>
    match buttons_plus with
    | [] => ([], .converged [])
    | button :: _rest =>
      match strptimeYmd button.bstdt with
      | .error e => ([], .failed (.dateError e))
      | .ok order_date =>
        let menu_text := menuDetails button
        match env.clickResult buttons_plus with
        | none => ([Event.click button], .failed .clickError)
        | some buttons_plus' =>
          let next := placeLoop env fuel buttons_plus'
          (Event.click button :: Event.settle 2 ::
             Event.scanPlus buttons_plus' :: next.1,
           match next.2 with
           | .converged rest => .converged (⟨order_date, menu_text⟩ :: rest)
           | r => r)

/-- Outcome of `place_new_orders`: normal return with the two record lists, an
uncaught exception, or fuel exhaustion of the embedded loop. -/
inductive RunResult where
  | ok (orders_old orders_new : List OrderRecord)
  | failed (e : RunError)
  | outOfFuel
deriving DecidableEq, Repr

/-- Embeds `place_new_orders` (lines 52-106): query both element sets (lines
79-80), record every existing order from the minus buttons (lines 85-89), then
run the placement loop (lines 91-104) and return both lists (line 106). -/
def place_new_orders (env : Env) (fuel : Nat) : List Event × RunResult :=
  let evs0 := [Event.scanMinus env.minus0, Event.scanPlus env.plus0]
  match processMinus env.minus0 with
  | .error e => (evs0, .failed (.dateError e))
  | .ok orders_old =>
    let next := placeLoop env fuel env.plus0
    (evs0 ++ next.1,
     match next.2 with
     | .converged orders_new => .ok orders_old orders_new
     | .failed e => .failed e
     | .outOfFuel => .outOfFuel)

/-- Checks the click/scan discipline of a trace, given the plus-button list
returned by the most recent scan: the trace is a sequence of
click-settle-rescan triples, each click acting on the first element of the
most recent query, with at most a final click whose raising cut the run
short. -/
def altScan : List Elem → List Event → Bool
  | _, [] => true
  | buttons_plus, [Event.click e] => decide (buttons_plus.head? = some e)
  | buttons_plus, Event.click e :: Event.settle s :: Event.scanPlus l :: rest =>
    decide (buttons_plus.head? = some e) && decide (s = 2) && altScan l rest
  | _, _ => false

/-- Embeds `click_next_week_button` (lines 161-183): given the elements the
`find_elements` query returned, the boolean result and the list of elements
clicked. -/
def click_next_week_button (btns_next_week : List Elem) : Bool × List Elem :=
  if btns_next_week.length ≠ 1 then (false, [])
  else (true, btns_next_week.take 1)

/-- Embeds `print_orders` (lines 192-218), returning the list of strings
printed: nothing when both lists are empty, otherwise a header naming the
min/max date over `old + new` followed by the two sections, each omitted when
its list is empty. -/
def print_orders (old new : List OrderRecord) : List String :=
  if old = [] ∧ new = [] then []
  else
    match (old ++ new).map (fun x => x.date) with
    | [] => []
    | d :: ds =>
      let dt_min := strftimeYmd (foldMin d ds)
      let dt_max := strftimeYmd (foldMax d ds)
      let header :=
        "------ Summary 📋 for [" ++ dt_min ++ "] to [" ++ dt_max ++
          "] 📅 ------"
      let oldLines :=
        if old = [] then [] else
          "\n--- ⏮  ✅ Existing orders:" ::
            old.map (fun o => "> [" ++ strftimeYmd o.date ++ "] - " ++ o.menu)
      let newLines :=
        if new = [] then [] else
          "\n--- 🆕 NEWLY 🍽  placed orders:" ::
            new.map (fun o =>
              "> 🧑‍🍳 ⭐ [" ++ strftimeYmd o.date ++ "] - " ++ o.menu)
      header :: (oldLines ++ newLines)

/-- A minus button: existing order dated 2024-01-08 with a well-formed
three-section menu text. -/
def elemA : Elem :=
  ⟨some "2024-01-08", some "A\nB\n\nMain dish\nline two\nAllergens\n\nFooter"⟩

/-- A plus button dated 2024-01-09 with an unparseable one-section menu. -/
def elemB : Elem := ⟨some "2024-01-09", some "x"⟩

/-- A plus button dated 2024-01-10 with an unparseable one-section menu. -/
def elemC : Elem := ⟨some "2024-01-10", some "y"⟩

/-- A button whose `bstdt` attribute is missing. -/
def elemBad : Elem := ⟨none, some "z"⟩

/-- A well-behaved page: one existing order, two placeable orders, and each
click removes the clicked head from the re-queried list. -/
def envW : Env := ⟨[elemA], [elemB, elemC], fun l => some l.tail⟩

/-- A page whose single minus button (position 0) has no `bstdt` attribute. -/
def envBad0 : Env := ⟨[elemBad], [], fun _ => none⟩

/-- A page whose second minus button (position 1) has no `bstdt` attribute. -/
def envBad1 : Env := ⟨[elemA, elemBad], [], fun _ => none⟩

/-- A page whose first plus button has no `bstdt` attribute. -/
def envPlusBad : Env := ⟨[], [elemBad, elemB], fun l => some l.tail⟩

end Schulessen

namespace Schulessen

theorem dateLt_irrefl (a : OrderDate) : ¬ dateLt a a := by
  unfold dateLt; omega

theorem dateLt_trans {a b c : OrderDate} (h1 : dateLt a b) (h2 : dateLt b c) :
    dateLt a c := by
  unfold dateLt at *; omega

theorem dateLt_resolve {a b c : OrderDate} (h1 : dateLt a b) (h2 : ¬ dateLt c b) :
    dateLt a c := by
  unfold dateLt at *; omega

theorem dateLt_resolve2 {a b c : OrderDate} (h1 : dateLt a b) (h2 : ¬ dateLt a c) :
    dateLt c b := by
  unfold dateLt at *; omega

theorem foldMin_nil (x : OrderDate) : foldMin x [] = x := rfl

theorem foldMax_nil (x : OrderDate) : foldMax x [] = x := rfl

theorem foldMin_cons (x y : OrderDate) (l : List OrderDate) :
    foldMin x (y :: l) = foldMin (if dateLt y x then y else x) l := rfl

theorem foldMax_cons (x y : OrderDate) (l : List OrderDate) :
    foldMax x (y :: l) = foldMax (if dateLt x y then y else x) l := rfl

theorem foldMin_mem : ∀ (l : List OrderDate) (x : OrderDate), foldMin x l ∈ x :: l := by
  intro l
  induction l with
  | nil => intro x; rw [foldMin_nil]; exact List.mem_cons_self _ _
  | cons y l ih =>
    intro x
    by_cases hc : dateLt y x
    · rw [foldMin_cons, if_pos hc]
      exact List.mem_cons_of_mem x (ih y)
    · rw [foldMin_cons, if_neg hc]
      rcases List.mem_cons.mp (ih x) with h | h
      · exact List.mem_cons.mpr (Or.inl h)
      · exact List.mem_cons_of_mem _ (List.mem_cons_of_mem _ h)

theorem foldMin_not_lt :
    ∀ (l : List OrderDate) (x : OrderDate), ∀ z ∈ x :: l, ¬ dateLt z (foldMin x l) := by
  intro l
  induction l with
  | nil =>
    intro x z hz
    have hzx : z = x := by simpa using hz
    rw [foldMin_nil, hzx]
    exact dateLt_irrefl x
  | cons y l ih =>
    intro x z hz
    rcases List.mem_cons.mp hz with hzx | hz'
    · rw [hzx]
      by_cases hc : dateLt y x
      · rw [foldMin_cons, if_pos hc]
        have hy := ih y y (List.mem_cons_self _ _)
        intro hzm
        exact hy (dateLt_trans hc hzm)
      · rw [foldMin_cons, if_neg hc]
        exact ih x x (List.mem_cons_self _ _)
    · rcases List.mem_cons.mp hz' with hzy | hzl
      · subst hzy
        by_cases hc : dateLt z x
        · rw [foldMin_cons, if_pos hc]
          exact ih z z (List.mem_cons_self _ _)
        · rw [foldMin_cons, if_neg hc]
          have hx := ih x x (List.mem_cons_self _ _)
          intro hzm
          exact hc (dateLt_resolve hzm hx)
      · by_cases hc : dateLt y x
        · rw [foldMin_cons, if_pos hc]
          exact ih y z (List.mem_cons_of_mem _ hzl)
        · rw [foldMin_cons, if_neg hc]
          exact ih x z (List.mem_cons_of_mem _ hzl)

theorem foldMax_mem : ∀ (l : List OrderDate) (x : OrderDate), foldMax x l ∈ x :: l := by
  intro l
  induction l with
  | nil => intro x; rw [foldMax_nil]; exact List.mem_cons_self _ _
  | cons y l ih =>
    intro x
    by_cases hc : dateLt x y
    · rw [foldMax_cons, if_pos hc]
      exact List.mem_cons_of_mem x (ih y)
    · rw [foldMax_cons, if_neg hc]
      rcases List.mem_cons.mp (ih x) with h | h
      · exact List.mem_cons.mpr (Or.inl h)
      · exact List.mem_cons_of_mem _ (List.mem_cons_of_mem _ h)

theorem foldMax_not_lt :
    ∀ (l : List OrderDate) (x : OrderDate), ∀ z ∈ x :: l, ¬ dateLt (foldMax x l) z := by
  intro l
  induction l with
  | nil =>
    intro x z hz
    have hzx : z = x := by simpa using hz
    rw [foldMax_nil, hzx]
    exact dateLt_irrefl x
  | cons y l ih =>
    intro x z hz
    rcases List.mem_cons.mp hz with hzx | hz'
    · rw [hzx]
      by_cases hc : dateLt x y
      · rw [foldMax_cons, if_pos hc]
        have hy := ih y y (List.mem_cons_self _ _)
        intro hmz
        exact hy (dateLt_trans hmz hc)
      · rw [foldMax_cons, if_neg hc]
        exact ih x x (List.mem_cons_self _ _)
    · rcases List.mem_cons.mp hz' with hzy | hzl
      · subst hzy
        by_cases hc : dateLt x z
        · rw [foldMax_cons, if_pos hc]
          exact ih z z (List.mem_cons_self _ _)
        · rw [foldMax_cons, if_neg hc]
          have hx := ih x x (List.mem_cons_self _ _)
          intro hmz
          exact hc (dateLt_resolve2 hmz hx)
      · by_cases hc : dateLt x y
        · rw [foldMax_cons, if_pos hc]
          exact ih y z (List.mem_cons_of_mem _ hzl)
        · rw [foldMax_cons, if_neg hc]
          exact ih x z (List.mem_cons_of_mem _ hzl)

end Schulessen

namespace Schulessen

theorem processMinus_ok_length :
    ∀ {l : List Elem} {recs : List OrderRecord},
      processMinus l = .ok recs → recs.length = l.length := by
  intro l
  induction l with
  | nil =>
    intro recs h
    simp [processMinus] at h
    simp [h.symm]
  | cons b rest ih =>
    intro recs h
    cases hp : strptimeYmd b.bstdt with
    | error e => simp [processMinus, hp] at h
    | ok d =>
      cases hr : processMinus rest with
      | error e => simp [processMinus, hp, hr] at h
      | ok recs' =>
        simp [processMinus, hp, hr] at h
        simp [h.symm, ih hr]

theorem processMinus_ok_of :
    ∀ {l : List Elem}, (∀ e ∈ l, ∃ d, strptimeYmd e.bstdt = .ok d) →
      ∃ recs, processMinus l = .ok recs := by
  intro l
  induction l with
  | nil => intro _; exact ⟨[], rfl⟩
  | cons b rest ih =>
    intro hall
    obtain ⟨d, hp⟩ := hall b (List.mem_cons_self _ _)
    obtain ⟨recs, hr⟩ := ih (fun e he => hall e (List.mem_cons_of_mem _ he))
    exact ⟨⟨d, menuDetails b⟩ :: recs, by simp [processMinus, hp, hr]⟩

theorem processMinus_error_of :
    ∀ {l : List Elem}, (∃ e ∈ l, ∃ de, strptimeYmd e.bstdt = .error de) →
      ∃ de, processMinus l = .error de := by
  intro l
  induction l with
  | nil => intro h; simp at h
  | cons b rest ih =>
    intro h
    cases hp : strptimeYmd b.bstdt with
    | error e => exact ⟨e, by simp [processMinus, hp]⟩
    | ok d =>
      obtain ⟨e, he, de, hde⟩ := h
      rcases List.mem_cons.mp he with rfl | he'
      · rw [hp] at hde; cases hde
      · obtain ⟨de', hr⟩ := ih ⟨e, he', de, hde⟩
        cases hrr : processMinus rest with
        | error f => exact ⟨f, by simp [processMinus, hp, hrr]⟩
        | ok recs => rw [hrr] at hr; cases hr

theorem placeLoop_nil (env : Env) (fuel : Nat) :
    placeLoop env fuel [] = ([], .converged []) := by
  cases fuel <;> simp [placeLoop]

theorem placeLoop_succ_err (env : Env) (fuel : Nat) (b : Elem) (rest : List Elem)
    (e : DateError) (hp : strptimeYmd b.bstdt = .error e) :
    placeLoop env (fuel + 1) (b :: rest) = ([], .failed (.dateError e)) := by
  simp [placeLoop, hp]

theorem placeLoop_succ_clickNone (env : Env) (fuel : Nat) (b : Elem)
    (rest : List Elem) (d : OrderDate) (hp : strptimeYmd b.bstdt = .ok d)
    (hc : env.clickResult (b :: rest) = none) :
    placeLoop env (fuel + 1) (b :: rest) = ([Event.click b], .failed .clickError) := by
  simp [placeLoop, hp, hc]

theorem placeLoop_succ_clickSome (env : Env) (fuel : Nat) (b : Elem)
    (rest : List Elem) (d : OrderDate) (l' : List Elem)
    (hp : strptimeYmd b.bstdt = .ok d)
    (hc : env.clickResult (b :: rest) = some l') :
    placeLoop env (fuel + 1) (b :: rest) =
      (Event.click b :: Event.settle 2 :: Event.scanPlus l' ::
         (placeLoop env fuel l').1,
       match (placeLoop env fuel l').2 with
       | .converged rest' => .converged (⟨d, menuDetails b⟩ :: rest')
       | r => r) := by
  simp [placeLoop, hp, hc]


theorem placeLoop_altScan (env : Env) :
    ∀ (fuel : Nat) (plus : List Elem),
      altScan plus (placeLoop env fuel plus).1 = true := by
  intro fuel
  induction fuel with
  | zero =>
    intro plus
    by_cases h : plus.isEmpty <;> simp [placeLoop, h, altScan]
  | succ fuel ih =>
    intro plus
    cases plus with
    | nil => simp [placeLoop_nil, altScan]
    | cons b rest =>
      cases hp : strptimeYmd b.bstdt with
      | error e => simp [placeLoop_succ_err env fuel b rest e hp, altScan]
      | ok d =>
        cases hc : env.clickResult (b :: rest) with
        | none =>
          rw [placeLoop_succ_clickNone env fuel b rest d hp hc]
          simp [altScan]
        | some lnew =>
          rw [placeLoop_succ_clickSome env fuel b rest d lnew hp hc]
          simp [altScan, ih lnew]

theorem placeLoop_no_scanMinus (env : Env) :
    ∀ (fuel : Nat) (plus : List Elem),
      (placeLoop env fuel plus).1.countP isScanMinus = 0 := by
  intro fuel
  induction fuel with
  | zero =>
    intro plus
    by_cases h : plus.isEmpty <;> simp [placeLoop, h]
  | succ fuel ih =>
    intro plus
    cases plus with
    | nil => simp [placeLoop_nil]
    | cons b rest =>
      cases hp : strptimeYmd b.bstdt with
      | error e => simp [placeLoop_succ_err env fuel b rest e hp]
      | ok d =>
        cases hc : env.clickResult (b :: rest) with
        | none =>
          rw [placeLoop_succ_clickNone env fuel b rest d hp hc]
          simp [List.countP_cons, isScanMinus]
        | some lnew =>
          rw [placeLoop_succ_clickSome env fuel b rest d lnew hp hc]
          simp [List.countP_cons, isScanMinus, ih lnew]

theorem placeLoop_clicks (env : Env) :
    ∀ (fuel : Nat) (plus : List Elem) (new : List OrderRecord),
      (placeLoop env fuel plus).2 = .converged new →
      new.length = countClicks (placeLoop env fuel plus).1 := by
  intro fuel
  induction fuel with
  | zero =>
    intro plus new h
    by_cases he : plus.isEmpty
    · simp [placeLoop, he] at h
      simp [placeLoop, he, countClicks, h.symm]
    · simp [placeLoop, he] at h
  | succ fuel ih =>
    intro plus new h
    cases plus with
    | nil =>
      rw [placeLoop_nil] at h ⊢
      cases h
      simp [countClicks]
    | cons b rest =>
      cases hp : strptimeYmd b.bstdt with
      | error e => rw [placeLoop_succ_err env fuel b rest e hp] at h; cases h
      | ok d =>
        cases hc : env.clickResult (b :: rest) with
        | none =>
          rw [placeLoop_succ_clickNone env fuel b rest d hp hc] at h
          cases h
        | some lnew =>
          rw [placeLoop_succ_clickSome env fuel b rest d lnew hp hc] at h ⊢
          cases hres : (placeLoop env fuel lnew).2 with
          | converged r =>
            rw [hres] at h
            simp at h
            simp [countClicks, List.countP_cons, isClick, h.symm, ih lnew r hres]
          | failed e => rw [hres] at h; cases h
          | outOfFuel => rw [hres] at h; cases h

theorem placeLoop_converged (env : Env)
    (hclick : ∀ (b : Elem) (rest : List Elem),
      ∃ lnew, env.clickResult (b :: rest) = some lnew ∧ lnew.Perm rest) :
    ∀ (fuel : Nat) (plus : List Elem),
      (∀ e ∈ plus, ∃ d, strptimeYmd e.bstdt = .ok d) →
      plus.length ≤ fuel →
      ∃ new, (placeLoop env fuel plus).2 = .converged new ∧
        new.length = plus.length := by
  intro fuel
  induction fuel with
  | zero =>
    intro plus hall hlen
    have hnil : plus = [] := List.length_eq_zero.mp (Nat.le_zero.mp hlen)
    subst hnil
    exact ⟨[], by rw [placeLoop_nil], rfl⟩
  | succ fuel ih =>
    intro plus hall hlen
    cases plus with
    | nil => exact ⟨[], by rw [placeLoop_nil], rfl⟩
    | cons b rest =>
      obtain ⟨d, hp⟩ := hall b (List.mem_cons_self _ _)
      obtain ⟨lnew, hc, hperm⟩ := hclick b rest
      have hall' : ∀ e ∈ lnew, ∃ d, strptimeYmd e.bstdt = .ok d := fun e he =>
        hall e (List.mem_cons_of_mem _ (hperm.mem_iff.mp he))
      have hlen' : lnew.length ≤ fuel := by
        rw [hperm.length_eq]
        simpa using hlen
      obtain ⟨new', h2, hl⟩ := ih lnew hall' hlen'
      refine ⟨⟨d, menuDetails b⟩ :: new', ?_, ?_⟩
      · rw [placeLoop_succ_clickSome env fuel b rest d lnew hp hc]
        simp [h2]
      · simp [hl, hperm.length_eq]

theorem placeLoop_ne_outOfFuel (env : Env)
    (hclick : ∀ (b : Elem) (rest : List Elem),
      ∃ lnew, env.clickResult (b :: rest) = some lnew ∧ lnew.Perm rest) :
    ∀ (fuel : Nat) (plus : List Elem),
      plus.length ≤ fuel →
      (placeLoop env fuel plus).2 ≠ .outOfFuel := by
  intro fuel
  induction fuel with
  | zero =>
    intro plus hlen
    have hnil : plus = [] := List.length_eq_zero.mp (Nat.le_zero.mp hlen)
    subst hnil
    rw [placeLoop_nil]
    intro h
    cases h
  | succ fuel ih =>
    intro plus hlen
    cases plus with
    | nil =>
      rw [placeLoop_nil]
      intro h
      cases h
    | cons b rest =>
      cases hp : strptimeYmd b.bstdt with
      | error e =>
        rw [placeLoop_succ_err env fuel b rest e hp]
        intro h
        cases h
      | ok d =>
        obtain ⟨lnew, hc, hperm⟩ := hclick b rest
        rw [placeLoop_succ_clickSome env fuel b rest d lnew hp hc]
        have hlen' : lnew.length ≤ fuel := by
          rw [hperm.length_eq]
          simpa using hlen
        have hne := ih lnew hlen'
        cases hres : (placeLoop env fuel lnew).2 with
        | converged r => simp [hres]
        | failed e => simp [hres]
        | outOfFuel => exact absurd hres hne

end Schulessen

namespace Schulessen

/-- C1: for every page view with `P` placeable and `E` existing controls whose
date attributes parse, under the claim's precondition that clicking a
placeable control removes exactly that control from subsequent scans (the
re-queried list is a permutation of the remaining ones, so any initial and
intermediate ordering is covered), running `place_new_orders` with enough fuel
converges and returns exactly `E` existing records and exactly `P` new
records. -/
theorem C1_placement_counts (env : Env) (fuel : Nat)
    (hminus : ∀ e ∈ env.minus0, ∃ d, strptimeYmd e.bstdt = .ok d)
    (hplus : ∀ e ∈ env.plus0, ∃ d, strptimeYmd e.bstdt = .ok d)
    (hclick : ∀ (b : Elem) (rest : List Elem),
      ∃ lnew, env.clickResult (b :: rest) = some lnew ∧ lnew.Perm rest)
    (hfuel : env.plus0.length ≤ fuel) :
    ∃ old new, (place_new_orders env fuel).2 = .ok old new ∧
      old.length = env.minus0.length ∧ new.length = env.plus0.length := by
  obtain ⟨old, hold⟩ := processMinus_ok_of hminus
  obtain ⟨new, hconv, hlen⟩ := placeLoop_converged env hclick fuel env.plus0 hplus hfuel
  exact ⟨old, new, by simp [place_new_orders, hold, hconv],
    processMinus_ok_length hold, hlen⟩

/-- Witness for C1 on the concrete page `envW` (one existing, two placeable
controls). -/
theorem C1_placement_counts_witness :
    ∃ old new, (place_new_orders envW 2).2 = .ok old new ∧
      old.length = envW.minus0.length ∧ new.length = envW.plus0.length :=
  C1_placement_counts envW 2
    (by
      intro e he
      simp [envW] at he
      rw [he]
      exact ⟨⟨2024, 1, 8⟩, by decide⟩)
    (by
      intro e he
      simp [envW] at he
      rcases he with he | he <;> rw [he]
      · exact ⟨⟨2024, 1, 9⟩, by decide⟩
      · exact ⟨⟨2024, 1, 10⟩, by decide⟩)
    (fun b rest => ⟨rest, rfl, List.Perm.refl rest⟩)
    (by decide)

/-- C2: the run's trace starts with exactly one scan of each control set, and
from there on is a sequence of click–settle–rescan triples: between any two
placement clicks exactly one fresh scan of the plus controls occurs, each
click acts on the first element of the most recent query, and the settle delay
is the fixed 2 time units. -/
theorem C2_one_placement_per_scan (env : Env) (fuel : Nat) :
    ∃ t, (place_new_orders env fuel).1 =
        Event.scanMinus env.minus0 :: Event.scanPlus env.plus0 :: t ∧
      altScan env.plus0 t = true := by
  cases hm : processMinus env.minus0 with
  | error e => exact ⟨[], by simp [place_new_orders, hm], by simp [altScan]⟩
  | ok old =>
    exact ⟨(placeLoop env fuel env.plus0).1, by simp [place_new_orders, hm],
      placeLoop_altScan env fuel env.plus0⟩

/-- C3: under the precondition that each click removes the clicked control
from subsequent scans, fuel equal to the initial number of placeable controls
suffices: the loop never runs out of fuel, i.e. it terminates because each
iteration shrinks the placeable list by exactly one or the list is empty. -/
theorem C3_loop_terminates (env : Env) (fuel : Nat)
    (hclick : ∀ (b : Elem) (rest : List Elem),
      ∃ lnew, env.clickResult (b :: rest) = some lnew ∧ lnew.Perm rest)
    (hfuel : env.plus0.length ≤ fuel) :
    (place_new_orders env fuel).2 ≠ .outOfFuel := by
  cases hm : processMinus env.minus0 with
  | error e => simp [place_new_orders, hm]
  | ok old =>
    have hne := placeLoop_ne_outOfFuel env hclick fuel env.plus0 hfuel
    cases hres : (placeLoop env fuel env.plus0).2 with
    | converged r => simp [place_new_orders, hm, hres]
    | failed e => simp [place_new_orders, hm, hres]
    | outOfFuel => exact absurd hres hne

/-- Witness for C3 on the concrete page `envW` with fuel 2. -/
theorem C3_loop_terminates_witness :
    (place_new_orders envW 2).2 ≠ .outOfFuel :=
  C3_loop_terminates envW 2 (fun b rest => ⟨rest, rfl, List.Perm.refl rest⟩)
    (by decide)

/-- Counterexample to C4: on the page `envW` (one existing, two placeable
controls) the converged run performs three plus-control scans but only a
single minus-control scan, and records the existing control once, not once per
scan — so the Order Scanner is NOT invoked for both control sets on every
entry to the scanning state, and existing controls are not re-recorded on
re-scans as the claim would require. -/
theorem C4_counterexample :
    (place_new_orders envW 2).1.countP isScanPlus = 3 ∧
    (place_new_orders envW 2).1.countP isScanMinus = 1 ∧
    (place_new_orders envW 2).2 =
      .ok [⟨⟨2024, 1, 8⟩, "Main dish line two"⟩]
        [⟨⟨2024, 1, 9⟩, "x"⟩, ⟨⟨2024, 1, 10⟩, "y"⟩] := by
  refine ⟨by decide, by decide, by decide⟩

/-- C4 (amended): only the initial entry to the scanning state queries both
control sets; every re-scan after a placement queries only the placeable set
(the minus set is scanned exactly once), and the existing records returned are
exactly those of the single initial minus query. -/
theorem C4_initial_scan_only (env : Env) (fuel : Nat) :
    (∃ t, (place_new_orders env fuel).1 =
        Event.scanMinus env.minus0 :: Event.scanPlus env.plus0 :: t ∧
        t.countP isScanMinus = 0) ∧
    (∀ old new, (place_new_orders env fuel).2 = .ok old new →
      processMinus env.minus0 = .ok old) := by
  constructor
  · cases hm : processMinus env.minus0 with
    | error e => exact ⟨[], by simp [place_new_orders, hm], by simp⟩
    | ok old =>
      exact ⟨(placeLoop env fuel env.plus0).1, by simp [place_new_orders, hm],
        placeLoop_no_scanMinus env fuel env.plus0⟩
  · intro old new h
    cases hm : processMinus env.minus0 with
    | error e => simp [place_new_orders, hm] at h
    | ok old0 =>
      cases hres : (placeLoop env fuel env.plus0).2 with
      | converged r =>
        simp [place_new_orders, hm, hres] at h
        rw [h.1.symm]
      | failed e => simp [place_new_orders, hm, hres] at h
      | outOfFuel => simp [place_new_orders, hm, hres] at h

/-- Witness for the amended C4 on the concrete page `envW`. -/
theorem C4_initial_scan_only_witness :
    (∃ t, (place_new_orders envW 2).1 =
        Event.scanMinus envW.minus0 :: Event.scanPlus envW.plus0 :: t ∧
        t.countP isScanMinus = 0) ∧
    processMinus envW.minus0 = .ok [⟨⟨2024, 1, 8⟩, "Main dish line two"⟩] :=
  ⟨(C4_initial_scan_only envW 2).1,
   (C4_initial_scan_only envW 2).2 [⟨⟨2024, 1, 8⟩, "Main dish line two"⟩]
     [⟨⟨2024, 1, 9⟩, "x"⟩, ⟨⟨2024, 1, 10⟩, "y"⟩] (by decide)⟩

end Schulessen

namespace Schulessen

/-- C5: on a located menu text with exactly three double-newline-separated
sections, `menu_details` returns the middle section with its last line
discarded and the remaining lines joined by single spaces (in particular the
claim's example yields "Main dish line two"); on any other section count it
returns the text unchanged. -/
theorem C5_menu_text_normalization (bst : Option String) (text a b c : String) :
    (pySplit "\n\n" text = [a, b, c] →
      menuDetails ⟨bst, some text⟩ =
        String.intercalate " " ((pySplit "\n" b).dropLast)) ∧
    ((pySplit "\n\n" text).length ≠ 3 → menuDetails ⟨bst, some text⟩ = text) ∧
    menuDetails ⟨bst, some "A\nB\n\nMain dish\nline two\nAllergens\n\nFooter"⟩ =
      "Main dish line two" := by
  refine ⟨?_, ?_, by simp only [menuDetails]; decide⟩
  · intro h
    simp [menuDetails, h]
  · intro h
    cases hs : pySplit "\n\n" text with
    | nil => simp [menuDetails, hs]
    | cons x xs =>
      cases xs with
      | nil => simp [menuDetails, hs]
      | cons y ys =>
        cases ys with
        | nil => simp [menuDetails, hs]
        | cons z zs =>
          cases zs with
          | nil => exact absurd (by rw [hs]; rfl) h
          | cons w ws => simp [menuDetails, hs]

/-- Witness for C5: the claim's own example discharges the three-section case,
and a one-section text discharges the identity case. -/
theorem C5_menu_text_normalization_witness :
    menuDetails ⟨none, some "A\nB\n\nMain dish\nline two\nAllergens\n\nFooter"⟩ =
      String.intercalate " "
        ((pySplit "\n" "Main dish\nline two\nAllergens").dropLast) ∧
    menuDetails ⟨none, some "hello"⟩ = "hello" :=
  ⟨(C5_menu_text_normalization none
      "A\nB\n\nMain dish\nline two\nAllergens\n\nFooter" "A\nB"
      "Main dish\nline two\nAllergens" "Footer").1 (by decide),
   (C5_menu_text_normalization none "hello" "" "" "").2.1 (by decide)⟩

/-- Counterexample to C6: the failing control sits at position 0 of the minus
list in `envBad0` and at position 1 in `envBad1`, yet both runs abort with the
very same error value — the propagated error is the bare parse exception and
carries no information naming the control's position. -/
theorem C6_counterexample :
    (place_new_orders envBad0 0).2 = .failed (.dateError .typeErrorNone) ∧
    (place_new_orders envBad1 0).2 = .failed (.dateError .typeErrorNone) := by
  refine ⟨by decide, by decide⟩

/-- C6 (amended): a missing or malformed date attribute on a discovered
control — a minus control (line 86) or the placeable control the loop is
about to process (line 93) — is fatal: the run aborts with the underlying
parse error, no record is silently defaulted — but the propagated error is
the bare exception, which does not name the control's position. -/
theorem C6_date_error_fatal (env : Env) (fuel : Nat)
    (h : (∃ e ∈ env.minus0, ∃ de, strptimeYmd e.bstdt = .error de) ∨
      (∃ b rest de, env.plus0 = b :: rest ∧
        strptimeYmd b.bstdt = .error de ∧ 1 ≤ fuel)) :
    ∃ de, (place_new_orders env fuel).2 = .failed (.dateError de) := by
  rcases h with h | ⟨b, rest, de, hplus, hbad, hfuel⟩
  · obtain ⟨de, hm⟩ := processMinus_error_of h
    exact ⟨de, by simp [place_new_orders, hm]⟩
  · cases hm : processMinus env.minus0 with
    | error e => exact ⟨e, by simp [place_new_orders, hm]⟩
    | ok old =>
      cases fuel with
      | zero => exact absurd hfuel (by omega)
      | succ f =>
        exact ⟨de, by simp [place_new_orders, hm, hplus,
          placeLoop_succ_err env f b rest de hbad]⟩

/-- Witness for the amended C6: `envBad0` has the bad-dated control among the
minus buttons, `envPlusBad` has it as the first placeable button. -/
theorem C6_date_error_fatal_witness :
    (∃ de, (place_new_orders envBad0 0).2 = .failed (.dateError de)) ∧
    (∃ de, (place_new_orders envPlusBad 2).2 = .failed (.dateError de)) :=
  ⟨C6_date_error_fatal envBad0 0
     (Or.inl ⟨elemBad, List.mem_cons_self _ _, .typeErrorNone, by decide⟩),
   C6_date_error_fatal envPlusBad 2
     (Or.inr ⟨elemBad, [elemB], .typeErrorNone, rfl, by decide, by decide⟩)⟩

/-- C7: `click_next_week_button` returns false and clicks nothing when zero or
two-or-more matching controls exist; it returns true and clicks exactly the
single control when exactly one exists. -/
theorem C7_advance_week (e : Elem) (btns : List Elem) :
    click_next_week_button [] = (false, []) ∧
    click_next_week_button [e] = (true, [e]) ∧
    (2 ≤ btns.length → click_next_week_button btns = (false, [])) := by
  refine ⟨by simp [click_next_week_button], by simp [click_next_week_button], ?_⟩
  intro h
  have hne : btns.length ≠ 1 := by omega
  simp [click_next_week_button, hne]

/-- Witness for C7 at a singleton and a two-element control list. -/
theorem C7_advance_week_witness :
    click_next_week_button [] = (false, []) ∧
    click_next_week_button [elemA] = (true, [elemA]) ∧
    click_next_week_button [elemA, elemB] = (false, []) :=
  ⟨(C7_advance_week elemA [elemA, elemB]).1,
   (C7_advance_week elemA [elemA, elemB]).2.1,
   (C7_advance_week elemA [elemA, elemB]).2.2 (by decide)⟩

end Schulessen

namespace Schulessen

/-- C8: `print_orders` on two empty lists prints nothing; on any non-empty
combined input the header line names exactly a minimum and a maximum of the
dates drawn from the union of the two lists. -/
theorem C8_summary_range (old new : List OrderRecord) :
    print_orders [] [] = ([] : List String) ∧
    (old ++ new ≠ [] →
      ∃ dmin dmax,
        dmin ∈ (old ++ new).map (fun r => r.date) ∧
        dmax ∈ (old ++ new).map (fun r => r.date) ∧
        (∀ d ∈ (old ++ new).map (fun r => r.date),
          ¬ dateLt d dmin ∧ ¬ dateLt dmax d) ∧
        (print_orders old new).head? =
          some ("------ Summary 📋 for [" ++ strftimeYmd dmin ++ "] to [" ++
            strftimeYmd dmax ++ "] 📅 ------")) := by
  constructor
  · simp [print_orders]
  · intro hne
    have hcond : ¬ (old = [] ∧ new = []) := by
      intro hb
      exact hne (by simp [hb.1, hb.2])
    cases hmap : (old ++ new).map (fun r => r.date) with
    | nil =>
      exact absurd (List.map_eq_nil_iff.mp hmap) hne
    | cons d ds =>
      refine ⟨foldMin d ds, foldMax d ds, ?_, ?_, ?_, ?_⟩
      · exact foldMin_mem ds d
      · exact foldMax_mem ds d
      · intro z hz
        exact ⟨foldMin_not_lt ds d z hz, foldMax_not_lt ds d z hz⟩
      · simp [print_orders, hcond, hmap]

/-- Witness for C8 on a one-record list of existing orders. -/
theorem C8_summary_range_witness :
    print_orders [] [] = ([] : List String) ∧
    ∃ dmin dmax,
      dmin ∈ (([⟨⟨2024, 1, 8⟩, "m"⟩] : List OrderRecord) ++ []).map
        (fun r : OrderRecord => r.date) ∧
      dmax ∈ (([⟨⟨2024, 1, 8⟩, "m"⟩] : List OrderRecord) ++ []).map
        (fun r : OrderRecord => r.date) ∧
      (∀ d ∈ (([⟨⟨2024, 1, 8⟩, "m"⟩] : List OrderRecord) ++ []).map
        (fun r : OrderRecord => r.date), ¬ dateLt d dmin ∧ ¬ dateLt dmax d) ∧
      (print_orders [⟨⟨2024, 1, 8⟩, "m"⟩] []).head? =
        some ("------ Summary 📋 for [" ++ strftimeYmd dmin ++ "] to [" ++
          strftimeYmd dmax ++ "] 📅 ------") :=
  ⟨(C8_summary_range [⟨⟨2024, 1, 8⟩, "m"⟩] []).1,
   (C8_summary_range [⟨⟨2024, 1, 8⟩, "m"⟩] []).2 (by decide)⟩

/-- Counterexample to C9: on a control whose menu cell cannot be located,
`menu_details` does not return the string "Couldn't find menu details!"
claimed by the spec — the actual diagnostic is decorated with dashes. -/
theorem C9_counterexample :
    menuDetails ⟨some "2024-01-08", none⟩ ≠ "Couldn't find menu details!" ∧
    menuDetails ⟨some "2024-01-08", none⟩ =
      "--- Couldn't find menu details! ---" := by
  refine ⟨by decide, by decide⟩

/-- C9 (amended): when the structural lookup of the text region fails,
`menu_details` returns the diagnostic string
"--- Couldn't find menu details! ---" (which contains the spec's phrase as a
substring); the function is total on this embedding, so no exception reaches
the caller. -/
theorem C9_missing_region_message (b : Elem) (h : b.menuCell = none) :
    menuDetails b = "--- Couldn't find menu details! ---" ∧
    ∃ pre post, menuDetails b = pre ++ "Couldn't find menu details!" ++ post := by
  constructor
  · simp [menuDetails, h]
  · refine ⟨"--- ", " ---", ?_⟩
    simp [menuDetails, h]

/-- Witness for the amended C9 on a concrete control with no menu cell. -/
theorem C9_missing_region_message_witness :
    menuDetails ⟨some "2024-01-08", none⟩ =
      "--- Couldn't find menu details! ---" ∧
    ∃ pre post, menuDetails ⟨some "2024-01-08", none⟩ =
      pre ++ "Couldn't find menu details!" ++ post :=
  C9_missing_region_message ⟨some "2024-01-08", none⟩ rfl

/-- C10: the order of effects in the placement loop — if the first placeable
control's date attribute fails to parse, the run aborts before any click is
performed and returns no records at all; and whenever the run returns
normally, the number of new records equals the number of completed click
actions (each record is appended only after its click and settle completed;
a raising click aborts the run, so no record for it — or any control — is
returned). -/
theorem C10_records_follow_clicks (env : Env) (fuel : Nat) :
    (∀ b rest de, env.plus0 = b :: rest → strptimeYmd b.bstdt = .error de →
      countClicks (place_new_orders env fuel).1 = 0 ∧
      ∀ old new, (place_new_orders env fuel).2 ≠ .ok old new) ∧
    (∀ old new, (place_new_orders env fuel).2 = .ok old new →
      new.length = countClicks (place_new_orders env fuel).1) := by
  constructor
  · intro b rest de hplus hbad
    cases hm : processMinus env.minus0 with
    | error e =>
      constructor
      · simp [place_new_orders, hm, countClicks, List.countP_cons, isClick]
      · intro old new
        simp [place_new_orders, hm]
    | ok old0 =>
      cases fuel with
      | zero =>
        constructor
        · simp [place_new_orders, hm, hplus, placeLoop, countClicks,
            List.countP_cons, isClick]
        · intro old new
          simp [place_new_orders, hm, hplus, placeLoop]
      | succ fuel =>
        constructor
        · simp [place_new_orders, hm, hplus,
            placeLoop_succ_err env fuel b rest de hbad, countClicks,
            List.countP_cons, isClick]
        · intro old new
          simp [place_new_orders, hm, hplus,
            placeLoop_succ_err env fuel b rest de hbad]
  · intro old new h
    cases hm : processMinus env.minus0 with
    | error e => simp [place_new_orders, hm] at h
    | ok old0 =>
      cases hres : (placeLoop env fuel env.plus0).2 with
      | converged r =>
        simp [place_new_orders, hm, hres] at h
        rw [place_new_orders]
        simp only [hm]
        rw [countClicks, List.countP_append]
        have h0 : List.countP isClick
            [Event.scanMinus env.minus0, Event.scanPlus env.plus0] = 0 := by
          simp [List.countP_cons, isClick]
        rw [h0]
        rw [h.2.symm]
        simpa [countClicks] using placeLoop_clicks env fuel env.plus0 r hres
      | failed e => simp [place_new_orders, hm, hres] at h
      | outOfFuel => simp [place_new_orders, hm, hres] at h

/-- Witness for C10: the date-failure half on `envPlusBad` (first plus control
lacks the date attribute), the click-counting half on the well-behaved page
`envW`. -/
theorem C10_records_follow_clicks_witness :
    (countClicks (place_new_orders envPlusBad 2).1 = 0 ∧
      ∀ old new, (place_new_orders envPlusBad 2).2 ≠ .ok old new) ∧
    ([⟨⟨2024, 1, 9⟩, "x"⟩, ⟨⟨2024, 1, 10⟩, "y"⟩] : List OrderRecord).length =
      countClicks (place_new_orders envW 2).1 :=
  ⟨(C10_records_follow_clicks envPlusBad 2).1 elemBad [elemB] .typeErrorNone
     rfl (by decide),
   (C10_records_follow_clicks envW 2).2 [⟨⟨2024, 1, 8⟩, "Main dish line two"⟩]
     [⟨⟨2024, 1, 9⟩, "x"⟩, ⟨⟨2024, 1, 10⟩, "y"⟩] (by decide)⟩

end Schulessen
